import Mathlib

/-!
# Verification of the Yalla chat service (yallatraffic-backend)

Shallow embedding of the Yalla chat service (`yallaChatService.js`, provided
as `src/unnamed/part_003`) and the chat route handler (`routes/traffic.js`,
chat section). Upstream HTTP collaborators (TomTom routing/traffic, Google
Places, the Gemini model session) are abstracted as explicit inputs: each
definition takes the collaborator's reply as a parameter and computes exactly
what the JavaScript does with it. JavaScript numbers are modelled as `ℚ`,
`Math.round` as floor of `q + 1/2`, absent object fields as `Option`, and a
thrown exception from a collaborator as an explicit `thrown` constructor.
-/

namespace YallaChat

/-- `Math.round` in JavaScript: round half toward positive infinity. -/
def jsRound (q : ℚ) : Int := ⌊q + 1/2⌋

/-! ## get_traffic_flow (part_003 lines 224–267) -/

/-- The fields of `response.data.flowSegmentData` the executor reads.
`roadClosure` may be absent (`undefined`), hence `Option`. -/
structure FlowSegmentData where
  currentSpeed : ℚ
  freeFlowSpeed : ℚ
  roadClosure : Option Bool
  deriving DecidableEq

/-- Result object of `get_traffic_flow` on the success path. -/
structure FlowResult where
  currentSpeedKmh : Int
  freeFlowSpeedKmh : Int
  condition : String
  roadClosed : Bool
  deriving DecidableEq

/-- The `condition` cascade of `get_traffic_flow` (lines 245–255):
strict comparisons of `currentSpeed` against fractions of `freeFlowSpeed`. -/
def flowCondition (currentSpeed freeFlowSpeed : ℚ) : String :=
  if currentSpeed < freeFlowSpeed * (3/10) then "severe"
  else if currentSpeed < freeFlowSpeed * (5/10) then "heavy"
  else if currentSpeed < freeFlowSpeed * (7/10) then "moderate"
  else if currentSpeed < freeFlowSpeed * (9/10) then "light"
  else "clear"

/-- The success-path result of `get_traffic_flow` (lines 257–262):
rounded speeds, the speed-derived condition, and
`roadClosed: flow.roadClosure || false`. -/
def getTrafficFlow (flow : FlowSegmentData) : FlowResult :=
  { currentSpeedKmh := jsRound flow.currentSpeed
    freeFlowSpeedKmh := jsRound flow.freeFlowSpeed
    condition := flowCondition flow.currentSpeed flow.freeFlowSpeed
    roadClosed := flow.roadClosure.getD false }

/-- Tier classification the spec describes, as a function of the ratio
`currentSpeed / freeFlowSpeed` (spec wording, for the refinement claim). -/
def ratioTier (ratio : ℚ) : String :=
  if ratio < 3/10 then "severe"
  else if ratio < 5/10 then "heavy"
  else if ratio < 7/10 then "moderate"
  else if ratio < 9/10 then "light"
  else "clear"

/-! ## get_departure_times (part_003 lines 269–327) -/

/-- The fields of a route's `summary` the executor reads.
`trafficDelayInSeconds` may be absent (`r.summary.trafficDelayInSeconds || 0`). -/
structure RouteSummary where
  travelTimeInSeconds : ℚ
  trafficDelayInSeconds : Option ℚ
  deriving DecidableEq

/-- Outcome of one routing request inside the per-offset `try`:
either the request threw (caught and skipped, line 302) or it returned a
list of routes (`response.data.routes`, possibly empty). -/
inductive RouteFetch where
  | thrown
  | ok (routes : List RouteSummary)
  deriving DecidableEq

/-- `response.data.routes?.[0]` guarded by the per-offset `try`/`catch`:
the route used for an offset, if any. -/
def routeOf : RouteFetch → Option RouteSummary
  | .thrown => none
  | .ok routes => routes.head?

/-- The four departure offsets in minutes (line 273). -/
def departureOffsets : List Nat := [0, 30, 60, 120]

/-- `offset === 0 ? 'Now' : `+${offset} min`` (line 296). -/
def offsetLabel (offset : Nat) : String :=
  if offset = 0 then "Now" else "+" ++ toString offset ++ " min"

/-- One element pushed onto `results` (lines 295–300), before the
`isBest` mutation. `departureTime` is omitted: it is the wall-clock
departure instant, irrelevant to every claim. -/
structure RawEntry where
  label : String
  durationMinutes : Int
  trafficDelayMinutes : Int
  deriving DecidableEq

/-- Build the `results` element for one offset from its route. -/
def rawEntryOf (offset : Nat) (route : RouteSummary) : RawEntry :=
  { label := offsetLabel offset
    durationMinutes := jsRound (route.travelTimeInSeconds / 60)
    trafficDelayMinutes := jsRound ((route.trafficDelayInSeconds.getD 0) / 60) }

/-- The `results` array after the for-loop (lines 276–305): offsets whose
request succeeded and returned at least one route, in offset order. -/
def rawResults (fetch : Nat → RouteFetch) : List RawEntry :=
  departureOffsets.filterMap fun offset => (routeOf (fetch offset)).map (rawEntryOf offset)

/-- `label.replace('+', '')` (line 321): JS `String.prototype.replace` with a
string pattern removes the first occurrence only. -/
def removeFirstPlusAux : List Char → List Char
  | [] => []
  | c :: cs => if c = '+' then cs else c :: removeFirstPlusAux cs

/-- `label.replace('+', '')` on the string level. -/
def removeFirstPlus (s : String) : String :=
  ⟨removeFirstPlusAux s.data⟩

/-- The reducer of line 312: `(min, r) => r.durationMinutes < min.durationMinutes ? r : min`. -/
def pickMin (min r : RawEntry) : RawEntry :=
  if r.durationMinutes < min.durationMinutes then r else min

/-- `results.reduce(pickMin, results[0])`: fold over the whole list with the
head as initial accumulator. -/
def bestEntry (r0 : RawEntry) (results : List RawEntry) : RawEntry :=
  results.foldl pickMin r0

/-- An element of `departureTimes` after the `forEach` of line 313 sets `isBest`. -/
structure DepartureEntry where
  label : String
  durationMinutes : Int
  trafficDelayMinutes : Int
  isBest : Bool
  deriving DecidableEq

/-- Success payload of `get_departure_times` (lines 317–322). -/
structure DepartureTimesOk where
  departureTimes : List DepartureEntry
  recommendation : String
  deriving DecidableEq

/-- `get_departure_times` after the per-offset loop (lines 307–322): error
when no offset survived, otherwise the best pick, `isBest` flags, and the
recommendation string with `timeSaved = results[0].durationMinutes -
best.durationMinutes`. -/
def getDepartureTimes (fetch : Nat → RouteFetch) : Except String DepartureTimesOk :=
  match rawResults fetch with
  | [] => .error "Could not calculate departure times"
  | r0 :: rest =>
    let best := bestEntry r0 (r0 :: rest)
    let final := (r0 :: rest).map fun r =>
      DepartureEntry.mk r.label r.durationMinutes r.trafficDelayMinutes (r.label == best.label)
    let timeSaved := r0.durationMinutes - best.durationMinutes
    .ok
      { departureTimes := final
        recommendation :=
          if best.label == "Now" then "Now is the best time to leave!"
          else "Wait " ++ removeFirstPlus best.label ++ " to save " ++
            toString timeSaved ++ " minutes" }

/-! ## get_incidents (part_003 lines 329–379) -/

/-- The `properties` fields of an upstream incident the executor reads. -/
structure IncidentProps where
  iconCategory : Option Nat
  magnitudeOfDelay : Option Nat
  eventDescriptions : List String
  fromLocation : Option String
  toLocation : Option String
  delay : Option ℚ
  deriving DecidableEq

/-- One element of `response.data.incidents`; `properties` may be absent
(`inc.properties || {}`). -/
structure Incident where
  properties : Option IncidentProps
  deriving DecidableEq

/-- `inc.properties || {}`: missing properties behave as the empty object. -/
def emptyProps : IncidentProps :=
  { iconCategory := none, magnitudeOfDelay := none, eventDescriptions := []
    fromLocation := none, toLocation := none, delay := none }

/-- `getIncidentTypeName` (lines 383–400): lookup table with default `'Incident'`. -/
def getIncidentTypeName (iconCategory : Option Nat) : String :=
  match iconCategory with
  | some 0 => "Unknown"
  | some 1 => "Accident"
  | some 2 => "Fog"
  | some 3 => "Dangerous Conditions"
  | some 4 => "Rain"
  | some 5 => "Ice"
  | some 6 => "Jam"
  | some 7 => "Lane Closed"
  | some 8 => "Road Closed"
  | some 9 => "Road Works"
  | some 10 => "Wind"
  | some 11 => "Flooding"
  | some 14 => "Broken Down Vehicle"
  | _ => "Incident"

/-- `getMagnitudeLabel` (lines 402–411): lookup table with default `'Unknown'`. -/
def getMagnitudeLabel (magnitude : Option Nat) : String :=
  match magnitude with
  | some 0 => "Unknown"
  | some 1 => "Minor"
  | some 2 => "Moderate"
  | some 3 => "Major"
  | some 4 => "Severe"
  | _ => "Unknown"

/-- A formatted incident (lines 359–369). -/
structure FormattedIncident where
  type : String
  description : String
  fromLocation : Option String
  toLocation : Option String
  delayMinutes : Option Int
  severity : String
  deriving DecidableEq

/-- Format one incident for the AI (lines 359–369). `props.delay ? ... : null`
is JS-truthy: a present delay of `0` still yields `null`. -/
def formatIncident (inc : Incident) : FormattedIncident :=
  let props := inc.properties.getD emptyProps
  { type := getIncidentTypeName props.iconCategory
    description := (props.eventDescriptions.head?).getD "Traffic incident"
    fromLocation := props.fromLocation
    toLocation := props.toLocation
    delayMinutes :=
      match props.delay with
      | some d => if d ≠ 0 then some (jsRound (d / 60)) else none
      | none => none
    severity := getMagnitudeLabel props.magnitudeOfDelay }

/-- The object `get_incidents` returns: JS object with optional fields, so
each field is an `Option`; the error path fills only `error`. -/
structure IncidentsOutcome where
  incidents : Option (List FormattedIncident)
  message : Option String
  totalCount : Option Nat
  error : Option String
  deriving DecidableEq

/-- `get_incidents` after the upstream query returned `upstream`
(`response.data.incidents || []`, lines 352–374): empty list gives the
"clear" success payload; otherwise the first five incidents, formatted. -/
def getIncidents (upstream : List Incident) : IncidentsOutcome :=
  if upstream.length = 0 then
    { incidents := some [], message := some "No incidents reported in this area - roads are clear!"
      totalCount := none, error := none }
  else
    { incidents := some ((upstream.take 5).map formatIncident), message := none
      totalCount := some upstream.length, error := none }

/-! ## search_place (part_003 lines 156–182) -/

/-- JavaScript truthiness of a possibly-absent number: `undefined` and `0`
are falsy. (`ℚ` has no `NaN`.) -/
def jsTruthyNum : Option ℚ → Bool
  | none => false
  | some v => v != 0

/-- The `options` object passed to `googlePlaces.searchPlaces` (lines 160–165). -/
structure SearchOptions where
  lat : Option ℚ
  lng : Option ℚ
  radius : Option Nat
  deriving DecidableEq

/-- `search_place`'s option building (lines 160–165): the 50 km bias is set
only when `nearLat && nearLon` is truthy; otherwise `options` stays empty. -/
def searchPlaceOptions (nearLat nearLon : Option ℚ) : SearchOptions :=
  if jsTruthyNum nearLat && jsTruthyNum nearLon then
    { lat := nearLat, lng := nearLon, radius := some 50000 }
  else
    { lat := none, lng := none, radius := none }

/-! ## The chat conversation engine (part_003 lines 416–518)

The Gemini session is abstracted as a stream `next : Nat → ModelResp`:
`next 0` is the outcome of the initial `sendMessage` (line 450), and
`next k` for `k ≥ 1` is the outcome of the `sendMessage` that returns the
tool result of the `k`-th executed tool (lines 480–485). Each outcome is
either a thrown exception (caught by the outer `catch`, lines 508–517) or a
response whose first candidate may be absent. Tool executors are modelled
by name membership in the `toolExecutors` object; their return values are
fed back to the model and so are absorbed into the stream. -/

/-- One `part` of a candidate's content: it may carry a `functionCall`
(modelled by the requested tool name; the arguments do not influence the
conversation control flow) and may carry `text`. -/
structure Part where
  functionCall : Option String
  text : Option String
  deriving DecidableEq

/-- Outcome of one `chatSession.sendMessage` call. `ok none` models a
response without candidates (`response.response.candidates?.[0]` absent). -/
inductive ModelResp where
  | thrown (msg : String)
  | ok (candidate : Option (List Part))
  deriving DecidableEq

/-- `candidate.content.parts.find(p => p.functionCall)` (line 466),
projected to the requested tool name. -/
def findFunctionCall (parts : List Part) : Option String :=
  (parts.find? fun p => p.functionCall.isSome).bind (·.functionCall)

/-- Text extraction of lines 492–495: join the `text` of the text-carrying
parts. -/
def textOf (parts : List Part) : String :=
  String.join (parts.filterMap (·.text))

/-- The own keys of the `toolExecutors` object (lines 155–380), which
coincide with the declared `TRAFFIC_TOOLS` names. -/
def registeredToolNames : List String :=
  ["search_place", "calculate_routes", "get_traffic_flow", "get_departure_times", "get_incidents"]

/-- The properties every object literal inherits from `Object.prototype`:
JavaScript property lookup traverses the prototype chain, and all of these
values (functions, and the `Object.prototype` object itself for
`__proto__`) are truthy. -/
def objectPrototypeMembers : List String :=
  ["constructor", "hasOwnProperty", "isPrototypeOf", "propertyIsEnumerable",
   "toLocaleString", "toString", "valueOf", "__proto__",
   "__defineGetter__", "__defineSetter__", "__lookupGetter__", "__lookupSetter__"]

/-- `const executor = toolExecutors[name]; if (executor)` (lines 474–475):
the lookup hits either an own key of `toolExecutors` or a truthy member
inherited from `Object.prototype`; it is falsy (`undefined`) exactly when
`name` is in neither list. For an inherited hit the program still calls
`executor(args)` and proceeds (or throws, e.g. for the non-callable
`__proto__`, which the model absorbs as a `thrown` response), so the
executed branch of the loop applies; only a complete miss takes the
`break` branch of line 488. -/
def hasExecutor (name : String) : Bool :=
  registeredToolNames.contains name || objectPrototypeMembers.contains name

/-- State when the `while` loop of lines 456–498 is left (or the outer
`catch` entered): a thrown message if an exception escaped, the final
`responseText`, the `toolsUsed` accumulator, the list of tools whose
executor was actually invoked, and the number of loop iterations run. -/
structure LoopEnd where
  thrownMsg : Option String
  responseText : String
  toolsUsed : List String
  toolsExecuted : List String
  iterations : Nat
  deriving DecidableEq

/-- The `while (iterations < maxIterations)` loop (lines 456–498), fuel =
`maxIterations - iterations`. The current response's candidate is examined;
a function call pushes the name onto `toolsUsed`, then a known executor
runs and the next model response is obtained (a throw there escapes to the
outer catch), while an unknown executor breaks; otherwise the text is
collected and the loop breaks. Fuel `0` is the `iterations < 5` exit with
`responseText` still `''`. -/
def chatLoop (next : Nat → ModelResp) :
    Option (List Part) → Nat → Nat → List String → List String → Nat → LoopEnd
  | _, _, 0, used, execs, iters => ⟨none, "", used, execs, iters⟩
  | cand, k, fuel + 1, used, execs, iters =>
    match cand with
    | none => ⟨none, "", used, execs, iters + 1⟩
    | some parts =>
      match findFunctionCall parts with
      | some name =>
        if hasExecutor name then
          match next k with
          | .thrown m => ⟨some m, "", used ++ [name], execs ++ [name], iters + 1⟩
          | .ok cand2 => chatLoop next cand2 (k + 1) fuel (used ++ [name]) (execs ++ [name]) (iters + 1)
        else ⟨none, "", used ++ [name], execs, iters + 1⟩
      | none => ⟨none, textOf parts, used, execs, iters + 1⟩

/-- The whole conversation run: initial `sendMessage` (line 450, a throw
there reaches the outer catch directly) then the loop with
`maxIterations = 5` starting from `iterations = 0`. -/
def runConversation (next : Nat → ModelResp) : LoopEnd :=
  match next 0 with
  | .thrown m => ⟨some m, "", [], [], 0⟩
  | .ok cand => chatLoop next cand 1 5 [] [] 0

/-- The fixed friendly message of the outer catch (line 514). -/
def oopsMessage : String :=
  "Oops! I had trouble processing that. Could you try rephrasing your question? 🤔"

/-- The object `chat` returns (lines 502–506 on the normal path, 512–516 in
the catch): `toolsUsed` is present only on the normal path, `error` only on
the catch path. -/
structure ChatOutcome where
  success : Bool
  message : String
  toolsUsed : Option (List String)
  error : Option String
  deriving DecidableEq

/-- `userLocation` / `conversationHistory` of the `context` argument
(line 417); history entries are opaque to the control flow. -/
structure ChatContext where
  userLocation : Option (ℚ × ℚ)
  conversationHistory : List String

/-- Lines 444–447: prepend the location context when present. -/
def enrichMessage (message : String) (userLocation : Option (ℚ × ℚ)) : String :=
  match userLocation with
  | some (lat, lon) =>
    "[User\u0027s current location: lat " ++ toString lat ++ ", lon " ++ toString lon ++
      "]\n\nUser: " ++ message
  | none => message

/-- The model capability: given the enriched first message and the
conversation history, it determines the stream of `sendMessage` outcomes. -/
def modelStream (model : String → List String → Nat → ModelResp)
    (message : String) (ctx : ChatContext) : Nat → ModelResp :=
  model (enrichMessage message ctx.userLocation) ctx.conversationHistory

/-- `chat(message, context)` (lines 416–518): run the conversation; an
escaped exception yields the catch object `{success:false, message:oops,
error:e.message}` (no `toolsUsed` field), the normal exit yields
`{success:true, message:responseText, toolsUsed}` (no `error` field). -/
def chat (model : String → List String → Nat → ModelResp)
    (message : String) (ctx : ChatContext) : ChatOutcome :=
  let e := runConversation (modelStream model message ctx)
  match e.thrownMsg with
  | some m => ⟨false, oopsMessage, none, some m⟩
  | none => ⟨true, e.responseText, some e.toolsUsed, none⟩

/-- `router.post('/')` of the chat routes file (`res.json(result)`,
line 180 of the combined routes source): the service outcome is forwarded
to the end caller verbatim. -/
def chatEndpointResponse (model : String → List String → Nat → ModelResp)
    (message : String) (ctx : ChatContext) : ChatOutcome :=
  chat model message ctx

/-! ## Concrete collaborator behaviours used as witnesses and counterexamples -/

/-- A candidate content consisting of a single function-call part. -/
def toolCallParts (name : String) : List Part := [⟨some name, none⟩]

/-- A model that requests the registered tool `get_incidents` on every turn. -/
def modelAlwaysTool : String → List String → Nat → ModelResp :=
  fun _ _ _ => .ok (some (toolCallParts "get_incidents"))

/-- A model whose first turn requests a tool name that has no executor. -/
def modelBogusTool : String → List String → Nat → ModelResp :=
  fun _ _ _ => .ok (some (toolCallParts "bogus_tool"))

/-- A model whose `sendMessage` throws with message `boom`. -/
def modelThrows : String → List String → Nat → ModelResp :=
  fun _ _ _ => .thrown "boom"

/-- Routing responses giving durations Now=40, +30=35, +60=45, +120=50 minutes. -/
def exampleRoutes : Nat → RouteFetch
  | 0 => .ok [⟨2400, none⟩]
  | 30 => .ok [⟨2100, none⟩]
  | 60 => .ok [⟨2700, none⟩]
  | _ => .ok [⟨3000, none⟩]

/-- The tool names `g k, g (k+1), …, g (k+j-1)` requested by `j`
consecutive turns, used to describe the `toolsUsed` accumulator of a run. -/
def namesFrom (g : Nat → String) : Nat → Nat → List String
  | _, 0 => []
  | k, Nat.succ j => g k :: namesFrom g (k + 1) j

/-! ## Helper lemmas -/

/-- The loop runs at most `fuel` more iterations. -/
lemma chatLoop_iterations_le (next : Nat → ModelResp) :
    ∀ (fuel : Nat) (cand : Option (List Part)) (k : Nat) (used execs : List String) (iters : Nat),
      (chatLoop next cand k fuel used execs iters).iterations ≤ iters + fuel := by
  intro fuel
  induction fuel with
  | zero => intro cand k used execs iters; simp [chatLoop]
  | succ n ih =>
    intro cand k used execs iters
    match cand with
    | none => simp [chatLoop]
    | some parts =>
      simp only [chatLoop]
      match findFunctionCall parts with
      | some name =>
        simp only
        by_cases h : hasExecutor name
        · simp only [h, if_true]
          match next k with
          | .thrown m => simp
          | .ok cand2 =>
            simp only
            have := ih cand2 (k + 1) (used ++ [name]) (execs ++ [name]) (iters + 1)
            omega
        · simp [h]
      | none => simp

/-- The fold of `pickMin` returns its initial accumulator or a list element. -/
lemma bestEntry_eq_or_mem :
    ∀ (l : List RawEntry) (r0 : RawEntry), bestEntry r0 l = r0 ∨ bestEntry r0 l ∈ l := by
  intro l
  induction l with
  | nil => intro r0; left; rfl
  | cons x xs ih =>
    intro r0
    have h := ih (pickMin r0 x)
    unfold bestEntry at *
    simp only [List.foldl_cons]
    rcases h with h | h
    · rw [h]
      unfold pickMin
      by_cases hx : x.durationMinutes < r0.durationMinutes
      · right; simp [hx]
      · left; simp [hx]
    · right; exact List.mem_cons_of_mem _ h

/-- The fold of `pickMin` is a lower bound for the initial accumulator and
every list element. -/
lemma bestEntry_le :
    ∀ (l : List RawEntry) (r0 : RawEntry),
      (bestEntry r0 l).durationMinutes ≤ r0.durationMinutes ∧
      ∀ r ∈ l, (bestEntry r0 l).durationMinutes ≤ r.durationMinutes := by
  intro l
  induction l with
  | nil => intro r0; exact ⟨le_refl _, by simp⟩
  | cons x xs ih =>
    intro r0
    have h := ih (pickMin r0 x)
    unfold bestEntry at *
    simp only [List.foldl_cons]
    have hpick : (pickMin r0 x).durationMinutes ≤ r0.durationMinutes ∧
        (pickMin r0 x).durationMinutes ≤ x.durationMinutes := by
      unfold pickMin
      by_cases hx : x.durationMinutes < r0.durationMinutes
      · simp [hx]; omega
      · simp [hx]; omega
    refine ⟨le_trans h.1 hpick.1, ?_⟩
    intro r hr
    rcases List.mem_cons.mp hr with rfl | hr
    · exact le_trans h.1 hpick.2
    · exact h.2 r hr

/-- The labels of the surviving results are pairwise distinct: each comes
from a distinct offset of `[0, 30, 60, 120]`. -/
lemma rawResults_labels_nodup (fetch : Nat → RouteFetch) :
    ((rawResults fetch).map (·.label)).Nodup := by
  unfold rawResults departureOffsets
  rcases h0 : routeOf (fetch 0) with _ | s0 <;>
    rcases h30 : routeOf (fetch 30) with _ | s30 <;>
      rcases h60 : routeOf (fetch 60) with _ | s60 <;>
        rcases h120 : routeOf (fetch 120) with _ | s120 <;>
          simp [List.filterMap_cons, h0, h30, h60, h120, rawEntryOf, offsetLabel] <;>
            decide

/-- The surviving results of the concrete durations Now=40, +30=35,
+60=45, +120=50 minutes. -/
lemma rawResults_exampleRoutes : rawResults exampleRoutes =
    [⟨"Now", 40, 0⟩, ⟨"+30 min", 35, 0⟩, ⟨"+60 min", 45, 0⟩, ⟨"+120 min", 50, 0⟩] := by
  have hz0 : jsRound ((0:ℚ) / 60) = 0 := by norm_num [jsRound]
  have hz1 : jsRound (0:ℚ) = 0 := by norm_num [jsRound]
  have hd0 : jsRound ((2400:ℚ) / 60) = 40 := by norm_num [jsRound]
  have hd30 : jsRound ((2100:ℚ) / 60) = 35 := by norm_num [jsRound]
  have hd60 : jsRound ((2700:ℚ) / 60) = 45 := by norm_num [jsRound]
  have hd120 : jsRound ((3000:ℚ) / 60) = 50 := by norm_num [jsRound]
  unfold rawResults departureOffsets
  simp [List.filterMap_cons, exampleRoutes, routeOf, rawEntryOf, offsetLabel,
    hz0, hz1, hd0, hd30, hd60, hd120]
  decide

/-- One loop iteration that executes a registered tool and gets the next
model response. -/
lemma chatLoop_tool_step (next : Nat → ModelResp) (parts : List Part) (name : String)
    (k fuel : Nat) (used execs : List String) (iters : Nat)
    (hf : findFunctionCall parts = some name) (hr : hasExecutor name = true)
    (cand2 : Option (List Part)) (hn : next k = .ok cand2) :
    chatLoop next (some parts) k (fuel + 1) used execs iters =
      chatLoop next cand2 (k + 1) fuel (used ++ [name]) (execs ++ [name]) (iters + 1) := by
  simp [chatLoop, hf, hr, hn]

/-- One loop iteration that executes a registered tool whose follow-up
`sendMessage` throws: the exception escapes to the outer catch. -/
lemma chatLoop_thrown_step (next : Nat → ModelResp) (parts : List Part) (name : String)
    (k fuel : Nat) (used execs : List String) (iters : Nat)
    (hf : findFunctionCall parts = some name) (hr : hasExecutor name = true)
    (m : String) (hn : next k = .thrown m) :
    chatLoop next (some parts) k (fuel + 1) used execs iters =
      ⟨some m, "", used ++ [name], execs ++ [name], iters + 1⟩ := by
  simp [chatLoop, hf, hr, hn]

/-- One loop iteration that meets an unregistered tool name: the name is
still pushed onto `toolsUsed`, no executor runs, and the loop breaks. -/
lemma chatLoop_unknown_step (next : Nat → ModelResp) (parts : List Part) (name : String)
    (k fuel : Nat) (used execs : List String) (iters : Nat)
    (hf : findFunctionCall parts = some name) (hr : hasExecutor name = false) :
    chatLoop next (some parts) k (fuel + 1) used execs iters =
      ⟨none, "", used ++ [name], execs, iters + 1⟩ := by
  simp [chatLoop, hf, hr]

/-- One loop iteration without a candidate: the loop breaks with the text
still empty. -/
lemma chatLoop_no_candidate_step (next : Nat → ModelResp)
    (k fuel : Nat) (used execs : List String) (iters : Nat) :
    chatLoop next none k (fuel + 1) used execs iters = ⟨none, "", used, execs, iters + 1⟩ := by
  simp [chatLoop]

/-- `namesFrom` as a mapped range. -/
lemma namesFrom_eq (g : Nat → String) :
    ∀ (j k : Nat), namesFrom g k j = (List.range j).map fun i => g (k + i) := by
  intro j
  induction j with
  | zero => intro k; simp [namesFrom]
  | succ n ih =>
    intro k
    rw [namesFrom, ih (k + 1), List.range_succ_eq_map]
    simp only [List.map_cons, List.map_map, Nat.add_zero]
    refine congrArg (g k :: ·) (List.map_congr_left ?_)
    intro i _
    simp only [Function.comp]
    congr 1
    omega

/-- `namesFrom` starting at 0 is plain `map` over a range. -/
lemma namesFrom_zero_eq (g : Nat → String) (j : Nat) :
    namesFrom g 0 j = (List.range j).map g := by
  rw [namesFrom_eq]
  exact List.map_congr_left fun i _ => by rw [Nat.zero_add]

/-- Appending the next name extends `namesFrom` by one. -/
lemma namesFrom_snoc (g : Nat → String) :
    ∀ (j k : Nat), namesFrom g k j ++ [g (k + j)] = namesFrom g k (j + 1) := by
  intro j
  induction j with
  | zero => intro k; simp [namesFrom]
  | succ n ih =>
    intro k
    rw [namesFrom, namesFrom, List.cons_append]
    refine congrArg (g k :: ·) ?_
    have e : k + (n + 1) = k + 1 + n := by omega
    rw [e]
    exact ih (k + 1)

/-- Running `j` consecutive iterations that each find a tool call whose
executor lookup hits and whose follow-up `sendMessage` returns the next
response: the loop advances `j` positions, consuming `j` fuel and pushing
the `j` names onto both accumulators. -/
lemma chatLoop_tool_run (next : Nat → ModelResp) (p : Nat → List Part) (g : Nat → String) :
    ∀ (j k fuel : Nat) (used execs : List String) (iters : Nat),
      (∀ i, i < j → findFunctionCall (p (k + i)) = some (g (k + i))) →
      (∀ i, i < j → hasExecutor (g (k + i)) = true) →
      (∀ i, i < j → next (k + 1 + i) = .ok (some (p (k + 1 + i)))) →
      chatLoop next (some (p k)) (k + 1) (fuel + j) used execs iters =
        chatLoop next (some (p (k + j))) (k + j + 1) fuel
          (used ++ namesFrom g k j) (execs ++ namesFrom g k j) (iters + j) := by
  intro j
  induction j with
  | zero =>
    intro k fuel used execs iters _ _ _
    simp [namesFrom]
  | succ n ih =>
    intro k fuel used execs iters h1 h2 h3
    have ha := h1 0 (by omega)
    have hb := h2 0 (by omega)
    have hc := h3 0 (by omega)
    simp only [Nat.add_zero] at ha hb hc
    have hstep := chatLoop_tool_step next (p k) (g k) (k + 1) (fuel + n) used execs iters
      ha hb (some (p (k + 1))) hc
    rw [show fuel + (n + 1) = (fuel + n) + 1 from rfl, hstep]
    have h1' : ∀ i, i < n → findFunctionCall (p (k + 1 + i)) = some (g (k + 1 + i)) := by
      intro i hi
      have h := h1 (i + 1) (by omega)
      have e : k + (i + 1) = k + 1 + i := by omega
      rw [e] at h
      exact h
    have h2' : ∀ i, i < n → hasExecutor (g (k + 1 + i)) = true := by
      intro i hi
      have h := h2 (i + 1) (by omega)
      have e : k + (i + 1) = k + 1 + i := by omega
      rw [e] at h
      exact h
    have h3' : ∀ i, i < n → next (k + 1 + 1 + i) = .ok (some (p (k + 1 + 1 + i))) := by
      intro i hi
      have h := h3 (i + 1) (by omega)
      have e : k + 1 + (i + 1) = k + 1 + 1 + i := by omega
      rw [e] at h
      exact h
    rw [ih (k + 1) fuel (used ++ [g k]) (execs ++ [g k]) (iters + 1) h1' h2' h3']
    have e1 : k + 1 + n = k + (n + 1) := by omega
    have e2 : iters + 1 + n = iters + (n + 1) := by omega
    rw [e1, e2]
    simp [namesFrom]

/-! ## Claim theorems -/

/-- C2: For every input message, optional location, history, and every
behaviour of the model and tool collaborators in which each individual call
returns, the conversation loop of `chat` runs at most 5 iterations; the
loop is a total function of the collaborator behaviour, so no infinite
loop is reachable. -/
theorem chat_loop_iterations_le_five
    (model : String → List String → Nat → ModelResp) (message : String) (ctx : ChatContext) :
    (runConversation (modelStream model message ctx)).iterations ≤ 5 := by
  unfold runConversation
  match h : modelStream model message ctx 0 with
  | .thrown m => simp
  | .ok cand => simpa using chatLoop_iterations_le (modelStream model message ctx) 5 cand 1 [] [] 0

/-- C6: `get_traffic_flow` classifies congestion by the ratio of current
speed to free-flow speed — below 30% severe, below 50% heavy, below 70%
moderate, below 90% light, otherwise clear — and in particular
currentSpeed=20 / freeFlowSpeed=80 gives `severe` while 75 / 80 gives
`clear`. -/
theorem get_traffic_flow_tier_thresholds (c ff : ℚ) (hff : 0 < ff) :
    flowCondition c ff = ratioTier (c / ff) ∧
    getTrafficFlow ⟨20, 80, none⟩ = ⟨20, 80, "severe", false⟩ ∧
    getTrafficFlow ⟨75, 80, none⟩ = ⟨75, 80, "clear", false⟩ := by
  refine ⟨?_, ?_, ?_⟩
  · simp only [flowCondition, ratioTier, div_lt_iff₀ hff, mul_comm]
  · have h1 : flowCondition 20 80 = "severe" := by norm_num [flowCondition]
    have h2 : jsRound (20 : ℚ) = 20 := by norm_num [jsRound]
    have h3 : jsRound (80 : ℚ) = 80 := by norm_num [jsRound]
    simp [getTrafficFlow, h1, h2, h3]
  · have h1 : flowCondition 75 80 = "clear" := by norm_num [flowCondition]
    have h2 : jsRound (75 : ℚ) = 75 := by norm_num [jsRound]
    have h3 : jsRound (80 : ℚ) = 80 := by norm_num [jsRound]
    simp [getTrafficFlow, h1, h2, h3]

/-- Witness for C6 at currentSpeed 20, freeFlowSpeed 80. -/
theorem get_traffic_flow_tier_thresholds_witness :
    (0 : ℚ) < 80 ∧ flowCondition 20 80 = ratioTier (20 / 80) :=
  ⟨by norm_num, (get_traffic_flow_tier_thresholds 20 80 (by norm_num)).1⟩

/-- C7 counterexample: with a flagged road closure and speeds 75 / 80 the
reported `condition` is still the speed-derived tier `clear` — the closure
does not override the tier; it only sets the separate `roadClosed`
boolean. -/
theorem road_closure_override_counterexample :
    (getTrafficFlow ⟨75, 80, some true⟩).condition = flowCondition 75 80 ∧
    (getTrafficFlow ⟨75, 80, some true⟩).condition = "clear" ∧
    (getTrafficFlow ⟨75, 80, some true⟩).roadClosed = true := by
  refine ⟨rfl, ?_, rfl⟩
  show flowCondition 75 80 = "clear"
  norm_num [flowCondition]

/-- C7 amended: a flagged road closure never alters the speed-derived
`condition`; it is surfaced to the caller solely as the separate boolean
field `roadClosed` (`flow.roadClosure || false`). -/
theorem road_closure_separate_boolean (flow : FlowSegmentData) :
    (getTrafficFlow flow).condition = flowCondition flow.currentSpeed flow.freeFlowSpeed ∧
    (getTrafficFlow flow).roadClosed = flow.roadClosure.getD false :=
  ⟨rfl, rfl⟩

/-- C9: with zero incidents in the queried bounding box, `get_incidents`
returns a success payload with an empty incident list and the explicit
"clear" message, and no error field. -/
theorem get_incidents_empty_clear_success :
    getIncidents [] =
      { incidents := some []
        message := some "No incidents reported in this area - roads are clear!"
        totalCount := none, error := none } := rfl

/-- C10: `search_place` applies the 50 km location bias only when both
`nearLat` and `nearLon` are supplied and nonzero; if either coordinate is
absent or equals 0, the search runs with no location bias at all. -/
theorem search_place_bias_iff_nonzero (a b : Option ℚ) :
    ((∃ x, a = some x ∧ x ≠ 0) ∧ (∃ y, b = some y ∧ y ≠ 0) →
      searchPlaceOptions a b = ⟨a, b, some 50000⟩) ∧
    ((a = none ∨ a = some 0 ∨ b = none ∨ b = some 0) →
      searchPlaceOptions a b = ⟨none, none, none⟩) := by
  constructor
  · rintro ⟨⟨x, rfl, hx⟩, ⟨y, rfl, hy⟩⟩
    simp [searchPlaceOptions, jsTruthyNum, hx, hy]
  · rintro (rfl | rfl | rfl | rfl) <;>
      simp [searchPlaceOptions, jsTruthyNum]

/-- Witness for C10: a zero longitude (prime-meridian-style coordinate)
disables the bias entirely, while two nonzero coordinates enable it. -/
theorem search_place_bias_iff_nonzero_witness :
    searchPlaceOptions (some 25) (some 0) = ⟨none, none, none⟩ ∧
    searchPlaceOptions (some 25) (some 55) = ⟨some 25, some 55, some 50000⟩ :=
  ⟨(search_place_bias_iff_nonzero (some 25) (some 0)).2 (by simp),
   (search_place_bias_iff_nonzero (some 25) (some 55)).1
     ⟨⟨25, rfl, by norm_num⟩, ⟨55, rfl, by norm_num⟩⟩⟩

/-- C1 counterexample: with a model that requests a registered tool on
every turn (in particular on 6 consecutive turns), the conversation does
NOT end with a failure outcome: `success` is `true` (with an empty
message), while the used-tools list indeed has length 5. -/
theorem chat_six_tool_requests_counterexample :
    ¬ (chat modelAlwaysTool "hi" ⟨none, []⟩).success = false ∧
    (chat modelAlwaysTool "hi" ⟨none, []⟩).toolsUsed =
      some ["get_incidents", "get_incidents", "get_incidents", "get_incidents", "get_incidents"] := by
  have h : chat modelAlwaysTool "hi" ⟨none, []⟩ =
      ⟨true, "",
        some ["get_incidents", "get_incidents", "get_incidents", "get_incidents", "get_incidents"],
        none⟩ := rfl
  rw [h]
  exact ⟨by simp, rfl⟩

/-- C1 amended: if the model requests a registered tool on 6 consecutive
turns (exceeding the bound of 5 tool cycles), the chat conversation ends
with a SUCCESS outcome (`success = true`) whose message is empty, and the
used-tools list has length exactly 5, not 6. -/
theorem chat_six_tool_requests_five_tools_used
    (model : String → List String → Nat → ModelResp) (message : String) (ctx : ChatContext)
    (f : Nat → String)
    (H : ∀ i, i ≤ 5 → ∃ parts, modelStream model message ctx i = .ok (some parts) ∧
        findFunctionCall parts = some (f i) ∧ hasExecutor (f i) = true) :
    chat model message ctx = ⟨true, "", some [f 0, f 1, f 2, f 3, f 4], none⟩ ∧
    ([f 0, f 1, f 2, f 3, f 4] : List String).length = 5 := by
  obtain ⟨p0, h0, hf0, hr0⟩ := H 0 (by omega)
  obtain ⟨p1, h1, hf1, hr1⟩ := H 1 (by omega)
  obtain ⟨p2, h2, hf2, hr2⟩ := H 2 (by omega)
  obtain ⟨p3, h3, hf3, hr3⟩ := H 3 (by omega)
  obtain ⟨p4, h4, hf4, hr4⟩ := H 4 (by omega)
  obtain ⟨p5, h5, hf5, hr5⟩ := H 5 (by omega)
  have E : runConversation (modelStream model message ctx) =
      ⟨none, "", [f 0, f 1, f 2, f 3, f 4], [f 0, f 1, f 2, f 3, f 4], 5⟩ := by
    unfold runConversation
    rw [h0]
    calc chatLoop (modelStream model message ctx) (some p0) 1 5 [] [] 0
        = chatLoop (modelStream model message ctx) (some p1) 2 4 [f 0] [f 0] 1 :=
          chatLoop_tool_step _ p0 (f 0) 1 4 [] [] 0 hf0 hr0 (some p1) h1
      _ = chatLoop (modelStream model message ctx) (some p2) 3 3 [f 0, f 1] [f 0, f 1] 2 :=
          chatLoop_tool_step _ p1 (f 1) 2 3 [f 0] [f 0] 1 hf1 hr1 (some p2) h2
      _ = chatLoop (modelStream model message ctx) (some p3) 4 2
            [f 0, f 1, f 2] [f 0, f 1, f 2] 3 :=
          chatLoop_tool_step _ p2 (f 2) 3 2 [f 0, f 1] [f 0, f 1] 2 hf2 hr2 (some p3) h3
      _ = chatLoop (modelStream model message ctx) (some p4) 5 1
            [f 0, f 1, f 2, f 3] [f 0, f 1, f 2, f 3] 4 :=
          chatLoop_tool_step _ p3 (f 3) 4 1 [f 0, f 1, f 2] [f 0, f 1, f 2] 3 hf3 hr3 (some p4) h4
      _ = chatLoop (modelStream model message ctx) (some p5) 6 0
            [f 0, f 1, f 2, f 3, f 4] [f 0, f 1, f 2, f 3, f 4] 5 :=
          chatLoop_tool_step _ p4 (f 4) 5 0 [f 0, f 1, f 2, f 3] [f 0, f 1, f 2, f 3] 4
            hf4 hr4 (some p5) h5
      _ = ⟨none, "", [f 0, f 1, f 2, f 3, f 4], [f 0, f 1, f 2, f 3, f 4], 5⟩ := rfl
  refine ⟨?_, rfl⟩
  unfold chat
  rw [E]

/-- Witness for C1 amended: the concrete always-requesting model yields
success with five recorded tool uses. -/
theorem chat_six_tool_requests_five_tools_used_witness :
    chat modelAlwaysTool "hi" ⟨none, []⟩ =
      ⟨true, "",
        some ["get_incidents", "get_incidents", "get_incidents", "get_incidents", "get_incidents"],
        none⟩ :=
  (chat_six_tool_requests_five_tools_used modelAlwaysTool "hi" ⟨none, []⟩
    (fun _ => "get_incidents") (fun _ _ => ⟨toolCallParts "get_incidents", rfl, rfl, rfl⟩)).1

/-- C3 counterexample: when the first model turn requests the unregistered
tool name `bogus_tool`, the conversation does NOT return a failure
outcome: `success` is `true` (with an empty message), and the unknown name
still appears in the used-tools list. -/
theorem chat_unknown_tool_counterexample :
    ¬ (chat modelBogusTool "hi" ⟨none, []⟩).success = false ∧
    (chat modelBogusTool "hi" ⟨none, []⟩).toolsUsed = some ["bogus_tool"] ∧
    (runConversation (modelStream modelBogusTool "hi" ⟨none, []⟩)).toolsExecuted = [] := by
  have h : chat modelBogusTool "hi" ⟨none, []⟩ = ⟨true, "", some ["bogus_tool"], none⟩ := rfl
  rw [h]
  exact ⟨by simp, rfl, rfl⟩

/-- C3 amended: if the model turn reached at position `k < 5` (after `k`
lookup-hit tool cycles) requests a tool whose name is a complete executor
lookup miss — neither among the five registered tools nor a property
inherited from `Object.prototype` such as `toString`, `constructor` or
`valueOf`, so `toolExecutors[name]` is falsy — the loop breaks there
without invoking any executor for that request — the missing name is never
among the executed tools — but the conversation returns a SUCCESS outcome
with an empty message, the missing name included in the used-tools list.
(For an inherited name the lookup is truthy and the program instead calls
the inherited value, continuing the loop or throwing into the outer
catch, so such names are excluded by `hasExecutor name = false`.) -/
theorem chat_unknown_tool_stops_without_executing
    (model : String → List String → Nat → ModelResp) (message : String) (ctx : ChatContext)
    (k : Nat) (hk : k < 5) (g : Nat → String) (name : String)
    (Hpre : ∀ i, i < k → ∃ parts, modelStream model message ctx i = .ok (some parts) ∧
        findFunctionCall parts = some (g i) ∧ hasExecutor (g i) = true)
    (Hk : ∃ parts, modelStream model message ctx k = .ok (some parts) ∧
        findFunctionCall parts = some name)
    (Hname : hasExecutor name = false) :
    chat model message ctx = ⟨true, "", some ((List.range k).map g ++ [name]), none⟩ ∧
    (runConversation (modelStream model message ctx)).toolsExecuted = (List.range k).map g ∧
    name ∉ (List.range k).map g := by
  obtain ⟨q, hq, hfq⟩ := Hk
  have hnotin : name ∉ (List.range k).map g := by
    intro hmem
    rcases List.mem_map.mp hmem with ⟨i, hi, hgi⟩
    obtain ⟨_, _, _, hre⟩ := Hpre i (List.mem_range.mp hi)
    rw [← hgi] at Hname
    rw [hre] at Hname
    exact absurd Hname (by simp)
  interval_cases k
  · have E : runConversation (modelStream model message ctx) = ⟨none, "", [name], [], 1⟩ := by
      unfold runConversation
      rw [hq]
      exact chatLoop_unknown_step _ q name 1 4 [] [] 0 hfq Hname
    refine ⟨?_, ?_, hnotin⟩
    · unfold chat; rw [E]; rfl
    · rw [E]; rfl
  · obtain ⟨p0, h0, hf0, hr0⟩ := Hpre 0 (by omega)
    have E : runConversation (modelStream model message ctx) =
        ⟨none, "", [g 0, name], [g 0], 2⟩ := by
      unfold runConversation
      rw [h0]
      calc chatLoop (modelStream model message ctx) (some p0) 1 5 [] [] 0
          = chatLoop (modelStream model message ctx) (some q) 2 4 [g 0] [g 0] 1 :=
            chatLoop_tool_step _ p0 (g 0) 1 4 [] [] 0 hf0 hr0 (some q) hq
        _ = ⟨none, "", [g 0, name], [g 0], 2⟩ :=
            chatLoop_unknown_step _ q name 2 3 [g 0] [g 0] 1 hfq Hname
    refine ⟨?_, ?_, hnotin⟩
    · unfold chat; rw [E]; simp [List.range_succ]
    · rw [E]; simp [List.range_succ]
  · obtain ⟨p0, h0, hf0, hr0⟩ := Hpre 0 (by omega)
    obtain ⟨p1, h1, hf1, hr1⟩ := Hpre 1 (by omega)
    have E : runConversation (modelStream model message ctx) =
        ⟨none, "", [g 0, g 1, name], [g 0, g 1], 3⟩ := by
      unfold runConversation
      rw [h0]
      calc chatLoop (modelStream model message ctx) (some p0) 1 5 [] [] 0
          = chatLoop (modelStream model message ctx) (some p1) 2 4 [g 0] [g 0] 1 :=
            chatLoop_tool_step _ p0 (g 0) 1 4 [] [] 0 hf0 hr0 (some p1) h1
        _ = chatLoop (modelStream model message ctx) (some q) 3 3 [g 0, g 1] [g 0, g 1] 2 :=
            chatLoop_tool_step _ p1 (g 1) 2 3 [g 0] [g 0] 1 hf1 hr1 (some q) hq
        _ = ⟨none, "", [g 0, g 1, name], [g 0, g 1], 3⟩ :=
            chatLoop_unknown_step _ q name 3 2 [g 0, g 1] [g 0, g 1] 2 hfq Hname
    refine ⟨?_, ?_, hnotin⟩
    · unfold chat; rw [E]; simp [List.range_succ]
    · rw [E]; simp [List.range_succ]
  · obtain ⟨p0, h0, hf0, hr0⟩ := Hpre 0 (by omega)
    obtain ⟨p1, h1, hf1, hr1⟩ := Hpre 1 (by omega)
    obtain ⟨p2, h2, hf2, hr2⟩ := Hpre 2 (by omega)
    have E : runConversation (modelStream model message ctx) =
        ⟨none, "", [g 0, g 1, g 2, name], [g 0, g 1, g 2], 4⟩ := by
      unfold runConversation
      rw [h0]
      calc chatLoop (modelStream model message ctx) (some p0) 1 5 [] [] 0
          = chatLoop (modelStream model message ctx) (some p1) 2 4 [g 0] [g 0] 1 :=
            chatLoop_tool_step _ p0 (g 0) 1 4 [] [] 0 hf0 hr0 (some p1) h1
        _ = chatLoop (modelStream model message ctx) (some p2) 3 3 [g 0, g 1] [g 0, g 1] 2 :=
            chatLoop_tool_step _ p1 (g 1) 2 3 [g 0] [g 0] 1 hf1 hr1 (some p2) h2
        _ = chatLoop (modelStream model message ctx) (some q) 4 2
              [g 0, g 1, g 2] [g 0, g 1, g 2] 3 :=
            chatLoop_tool_step _ p2 (g 2) 3 2 [g 0, g 1] [g 0, g 1] 2 hf2 hr2 (some q) hq
        _ = ⟨none, "", [g 0, g 1, g 2, name], [g 0, g 1, g 2], 4⟩ :=
            chatLoop_unknown_step _ q name 4 1 [g 0, g 1, g 2] [g 0, g 1, g 2] 3 hfq Hname
    refine ⟨?_, ?_, hnotin⟩
    · unfold chat; rw [E]; simp [List.range_succ]
    · rw [E]; simp [List.range_succ]
  · obtain ⟨p0, h0, hf0, hr0⟩ := Hpre 0 (by omega)
    obtain ⟨p1, h1, hf1, hr1⟩ := Hpre 1 (by omega)
    obtain ⟨p2, h2, hf2, hr2⟩ := Hpre 2 (by omega)
    obtain ⟨p3, h3, hf3, hr3⟩ := Hpre 3 (by omega)
    have E : runConversation (modelStream model message ctx) =
        ⟨none, "", [g 0, g 1, g 2, g 3, name], [g 0, g 1, g 2, g 3], 5⟩ := by
      unfold runConversation
      rw [h0]
      calc chatLoop (modelStream model message ctx) (some p0) 1 5 [] [] 0
          = chatLoop (modelStream model message ctx) (some p1) 2 4 [g 0] [g 0] 1 :=
            chatLoop_tool_step _ p0 (g 0) 1 4 [] [] 0 hf0 hr0 (some p1) h1
        _ = chatLoop (modelStream model message ctx) (some p2) 3 3 [g 0, g 1] [g 0, g 1] 2 :=
            chatLoop_tool_step _ p1 (g 1) 2 3 [g 0] [g 0] 1 hf1 hr1 (some p2) h2
        _ = chatLoop (modelStream model message ctx) (some p3) 4 2
              [g 0, g 1, g 2] [g 0, g 1, g 2] 3 :=
            chatLoop_tool_step _ p2 (g 2) 3 2 [g 0, g 1] [g 0, g 1] 2 hf2 hr2 (some p3) h3
        _ = chatLoop (modelStream model message ctx) (some q) 5 1
              [g 0, g 1, g 2, g 3] [g 0, g 1, g 2, g 3] 4 :=
            chatLoop_tool_step _ p3 (g 3) 4 1 [g 0, g 1, g 2] [g 0, g 1, g 2] 3 hf3 hr3 (some q) hq
        _ = ⟨none, "", [g 0, g 1, g 2, g 3, name], [g 0, g 1, g 2, g 3], 5⟩ :=
            chatLoop_unknown_step _ q name 5 0 [g 0, g 1, g 2, g 3] [g 0, g 1, g 2, g 3] 4
              hfq Hname
    refine ⟨?_, ?_, hnotin⟩
    · unfold chat; rw [E]; simp [List.range_succ]
    · rw [E]; simp [List.range_succ]

/-- Witness for C3 amended at k = 0 with the concrete `bogus_tool` model. -/
theorem chat_unknown_tool_stops_without_executing_witness :
    chat modelBogusTool "hi" ⟨none, []⟩ = ⟨true, "", some ["bogus_tool"], none⟩ :=
  by
    have h := (chat_unknown_tool_stops_without_executing modelBogusTool "hi" ⟨none, []⟩
      0 (by omega) (fun _ => "") "bogus_tool"
      (fun i hi => absurd hi (by omega))
      ⟨toolCallParts "bogus_tool", rfl, rfl⟩ rfl).1
    simpa using h

/-- C4 counterexample: internal error detail IS returned to the end caller
— with a model whose `sendMessage` throws `boom`, the outcome forwarded
verbatim by the route (`res.json(result)`) carries `error = some "boom"`;
moreover the unknown-tool fatal path does not carry the friendly message at
all (its message is empty). -/
theorem chat_fatal_paths_counterexample :
    (chatEndpointResponse modelThrows "hi" ⟨none, []⟩).error = some "boom" ∧
    (chatEndpointResponse modelThrows "hi" ⟨none, []⟩).message = oopsMessage ∧
    (chatEndpointResponse modelBogusTool "hi" ⟨none, []⟩).message = "" ∧
    ¬ (chatEndpointResponse modelBogusTool "hi" ⟨none, []⟩).message = oopsMessage := by
  refine ⟨rfl, rfl, rfl, ?_⟩
  have h : (chatEndpointResponse modelBogusTool "hi" ⟨none, []⟩).message = "" := rfl
  rw [h]
  decide

/-- C4 amended: wherever in the conversation it occurs, only the
thrown-exception path produces the fixed friendly message, and that
outcome also carries the internal exception message in its `error` field,
forwarded verbatim to the end caller by `res.json(result)`; the other
fatal paths — an absent model turn, an executor-lookup miss (a name
neither among the five registered tools nor inherited from
`Object.prototype`), or the iteration bound being exceeded — return
`success = true` with an empty message and no error field. Each conjunct
quantifies over the position `t` at which the fatal event happens, after
`t` completed tool cycles. -/
theorem chat_fatal_path_outcomes :
    (∀ (model : String → List String → Nat → ModelResp) (message : String)
        (ctx : ChatContext) (p : Nat → List Part) (g : Nat → String) (t : Nat) (m : String),
      t ≤ 5 →
      (∀ i, i < t → modelStream model message ctx i = .ok (some (p i))) →
      (∀ i, i < t → findFunctionCall (p i) = some (g i)) →
      (∀ i, i < t → hasExecutor (g i) = true) →
      modelStream model message ctx t = .thrown m →
      chatEndpointResponse model message ctx = ⟨false, oopsMessage, none, some m⟩) ∧
    (∀ (model : String → List String → Nat → ModelResp) (message : String)
        (ctx : ChatContext) (p : Nat → List Part) (g : Nat → String) (t : Nat),
      t ≤ 4 →
      (∀ i, i < t → modelStream model message ctx i = .ok (some (p i))) →
      (∀ i, i < t → findFunctionCall (p i) = some (g i)) →
      (∀ i, i < t → hasExecutor (g i) = true) →
      modelStream model message ctx t = .ok none →
      chatEndpointResponse model message ctx =
        ⟨true, "", some ((List.range t).map g), none⟩) ∧
    (∀ (model : String → List String → Nat → ModelResp) (message : String)
        (ctx : ChatContext) (p : Nat → List Part) (g : Nat → String) (t : Nat) (name : String),
      t ≤ 4 →
      (∀ i, i ≤ t → modelStream model message ctx i = .ok (some (p i))) →
      (∀ i, i < t → findFunctionCall (p i) = some (g i)) →
      (∀ i, i < t → hasExecutor (g i) = true) →
      findFunctionCall (p t) = some name →
      hasExecutor name = false →
      chatEndpointResponse model message ctx =
        ⟨true, "", some ((List.range t).map g ++ [name]), none⟩) ∧
    (∀ (model : String → List String → Nat → ModelResp) (message : String)
        (ctx : ChatContext) (p : Nat → List Part) (g : Nat → String),
      (∀ i, i ≤ 5 → modelStream model message ctx i = .ok (some (p i))) →
      (∀ i, i ≤ 5 → findFunctionCall (p i) = some (g i)) →
      (∀ i, i ≤ 5 → hasExecutor (g i) = true) →
      chatEndpointResponse model message ctx =
        ⟨true, "", some ((List.range 5).map g), none⟩) := by
  refine ⟨?_, ?_, ?_, ?_⟩
  · intro model message ctx p g t m ht hok hf hr hthr
    cases t with
    | zero =>
      have E : runConversation (modelStream model message ctx) = ⟨some m, "", [], [], 0⟩ := by
        unfold runConversation
        rw [hthr]
      unfold chatEndpointResponse chat
      rw [E]
    | succ j =>
      have h1 : ∀ i, i < j → findFunctionCall (p (0 + i)) = some (g (0 + i)) := by
        intro i hi
        simpa using hf i (by omega)
      have h2 : ∀ i, i < j → hasExecutor (g (0 + i)) = true := by
        intro i hi
        simpa using hr i (by omega)
      have h3 : ∀ i, i < j →
          modelStream model message ctx (0 + 1 + i) = .ok (some (p (0 + 1 + i))) := by
        intro i hi
        have h := hok (i + 1) (by omega)
        have e : (0:Nat) + 1 + i = i + 1 := by omega
        rw [e]
        exact h
      have hfe : (5 : Nat) = 4 - j + 1 + j := by omega
      have E : runConversation (modelStream model message ctx) =
          ⟨some m, "", namesFrom g 0 j ++ [g j], namesFrom g 0 j ++ [g j], j + 1⟩ := by
        calc runConversation (modelStream model message ctx)
            = chatLoop (modelStream model message ctx) (some (p 0)) 1 5 [] [] 0 := by
              unfold runConversation
              rw [hok 0 (by omega)]
          _ = chatLoop (modelStream model message ctx) (some (p j)) (j + 1) (4 - j + 1)
                (namesFrom g 0 j) (namesFrom g 0 j) j := by
              rw [hfe]
              have R := chatLoop_tool_run (modelStream model message ctx) p g j 0
                (4 - j + 1) [] [] 0 h1 h2 h3
              simpa using R
          _ = ⟨some m, "", namesFrom g 0 j ++ [g j], namesFrom g 0 j ++ [g j], j + 1⟩ :=
              chatLoop_thrown_step (modelStream model message ctx) (p j) (g j) (j + 1)
                (4 - j) (namesFrom g 0 j) (namesFrom g 0 j) j
                (hf j (by omega)) (hr j (by omega)) m hthr
      unfold chatEndpointResponse chat
      rw [E]
  · intro model message ctx p g t ht hok hf hr habs
    cases t with
    | zero =>
      have E : runConversation (modelStream model message ctx) = ⟨none, "", [], [], 1⟩ := by
        calc runConversation (modelStream model message ctx)
            = chatLoop (modelStream model message ctx) none 1 5 [] [] 0 := by
              unfold runConversation
              rw [habs]
          _ = ⟨none, "", [], [], 1⟩ :=
              chatLoop_no_candidate_step (modelStream model message ctx) 1 4 [] [] 0
      unfold chatEndpointResponse chat
      rw [E]
      rfl
    | succ j =>
      have h1 : ∀ i, i < j → findFunctionCall (p (0 + i)) = some (g (0 + i)) := by
        intro i hi
        simpa using hf i (by omega)
      have h2 : ∀ i, i < j → hasExecutor (g (0 + i)) = true := by
        intro i hi
        simpa using hr i (by omega)
      have h3 : ∀ i, i < j →
          modelStream model message ctx (0 + 1 + i) = .ok (some (p (0 + 1 + i))) := by
        intro i hi
        have h := hok (i + 1) (by omega)
        have e : (0:Nat) + 1 + i = i + 1 := by omega
        rw [e]
        exact h
      have hfe : (5 : Nat) = 3 - j + 1 + 1 + j := by omega
      have E : runConversation (modelStream model message ctx) =
          ⟨none, "", namesFrom g 0 j ++ [g j], namesFrom g 0 j ++ [g j], j + 2⟩ := by
        calc runConversation (modelStream model message ctx)
            = chatLoop (modelStream model message ctx) (some (p 0)) 1 5 [] [] 0 := by
              unfold runConversation
              rw [hok 0 (by omega)]
          _ = chatLoop (modelStream model message ctx) (some (p j)) (j + 1) (3 - j + 1 + 1)
                (namesFrom g 0 j) (namesFrom g 0 j) j := by
              rw [hfe]
              have R := chatLoop_tool_run (modelStream model message ctx) p g j 0
                (3 - j + 1 + 1) [] [] 0 h1 h2 h3
              simpa using R
          _ = chatLoop (modelStream model message ctx) none (j + 1 + 1) (3 - j + 1)
                (namesFrom g 0 j ++ [g j]) (namesFrom g 0 j ++ [g j]) (j + 1) :=
              chatLoop_tool_step (modelStream model message ctx) (p j) (g j) (j + 1)
                (3 - j + 1) (namesFrom g 0 j) (namesFrom g 0 j) j
                (hf j (by omega)) (hr j (by omega)) none habs
          _ = ⟨none, "", namesFrom g 0 j ++ [g j], namesFrom g 0 j ++ [g j], j + 2⟩ :=
              chatLoop_no_candidate_step (modelStream model message ctx) (j + 1 + 1) (3 - j)
                (namesFrom g 0 j ++ [g j]) (namesFrom g 0 j ++ [g j]) (j + 1)
      unfold chatEndpointResponse chat
      rw [E]
      have hs := namesFrom_snoc g j 0
      simp only [Nat.zero_add] at hs
      rw [hs, namesFrom_zero_eq]
  · intro model message ctx p g t name ht hok hf hr hfname hmiss
    cases t with
    | zero =>
      have E : runConversation (modelStream model message ctx) =
          ⟨none, "", [name], [], 1⟩ := by
        calc runConversation (modelStream model message ctx)
            = chatLoop (modelStream model message ctx) (some (p 0)) 1 5 [] [] 0 := by
              unfold runConversation
              rw [hok 0 (by omega)]
          _ = ⟨none, "", [name], [], 1⟩ :=
              chatLoop_unknown_step (modelStream model message ctx) (p 0) name 1 4 [] [] 0
                hfname hmiss
      unfold chatEndpointResponse chat
      rw [E]
      rfl
    | succ j =>
      have h1 : ∀ i, i < j + 1 → findFunctionCall (p (0 + i)) = some (g (0 + i)) := by
        intro i hi
        simpa using hf i (by omega)
      have h2 : ∀ i, i < j + 1 → hasExecutor (g (0 + i)) = true := by
        intro i hi
        simpa using hr i (by omega)
      have h3 : ∀ i, i < j + 1 →
          modelStream model message ctx (0 + 1 + i) = .ok (some (p (0 + 1 + i))) := by
        intro i hi
        have h := hok (i + 1) (by omega)
        have e : (0:Nat) + 1 + i = i + 1 := by omega
        rw [e]
        exact h
      have hfe : (5 : Nat) = 3 - j + 1 + (j + 1) := by omega
      have E : runConversation (modelStream model message ctx) =
          ⟨none, "", namesFrom g 0 (j + 1) ++ [name], namesFrom g 0 (j + 1), j + 2⟩ := by
        calc runConversation (modelStream model message ctx)
            = chatLoop (modelStream model message ctx) (some (p 0)) 1 5 [] [] 0 := by
              unfold runConversation
              rw [hok 0 (by omega)]
          _ = chatLoop (modelStream model message ctx) (some (p (j + 1))) (j + 1 + 1)
                (3 - j + 1) (namesFrom g 0 (j + 1)) (namesFrom g 0 (j + 1)) (j + 1) := by
              rw [hfe]
              have R := chatLoop_tool_run (modelStream model message ctx) p g (j + 1) 0
                (3 - j + 1) [] [] 0 h1 h2 h3
              simpa using R
          _ = ⟨none, "", namesFrom g 0 (j + 1) ++ [name], namesFrom g 0 (j + 1), j + 2⟩ :=
              chatLoop_unknown_step (modelStream model message ctx) (p (j + 1)) name
                (j + 1 + 1) (3 - j) (namesFrom g 0 (j + 1)) (namesFrom g 0 (j + 1)) (j + 1)
                hfname hmiss
      unfold chatEndpointResponse chat
      rw [E, namesFrom_zero_eq]
  · intro model message ctx p g hok hf hr
    have h1 : ∀ i, i < 5 → findFunctionCall (p (0 + i)) = some (g (0 + i)) := by
      intro i hi
      simpa using hf i (by omega)
    have h2 : ∀ i, i < 5 → hasExecutor (g (0 + i)) = true := by
      intro i hi
      simpa using hr i (by omega)
    have h3 : ∀ i, i < 5 →
        modelStream model message ctx (0 + 1 + i) = .ok (some (p (0 + 1 + i))) := by
      intro i hi
      have h := hok (i + 1) (by omega)
      have e : (0:Nat) + 1 + i = i + 1 := by omega
      rw [e]
      exact h
    have E : runConversation (modelStream model message ctx) =
        ⟨none, "", namesFrom g 0 5, namesFrom g 0 5, 5⟩ := by
      calc runConversation (modelStream model message ctx)
          = chatLoop (modelStream model message ctx) (some (p 0)) 1 5 [] [] 0 := by
            unfold runConversation
            rw [hok 0 (by omega)]
        _ = chatLoop (modelStream model message ctx) (some (p 5)) 6 0
              (namesFrom g 0 5) (namesFrom g 0 5) 5 := by
            have R := chatLoop_tool_run (modelStream model message ctx) p g 5 0 0 [] [] 0
              h1 h2 h3
            simpa using R
        _ = ⟨none, "", namesFrom g 0 5, namesFrom g 0 5, 5⟩ := rfl
    unfold chatEndpointResponse chat
    rw [E, namesFrom_zero_eq]

/-- Witness for C4 amended: the thrown path at the concrete message
`boom` (t = 0), the lookup-miss path at the concrete name `bogus_tool`
(t = 0), and the bound-exceeded path with `get_incidents` requested on
every turn. -/
theorem chat_fatal_path_outcomes_witness :
    chatEndpointResponse modelThrows "hi" ⟨none, []⟩ =
      ⟨false, oopsMessage, none, some "boom"⟩ ∧
    chatEndpointResponse modelBogusTool "hi" ⟨none, []⟩ =
      ⟨true, "", some ["bogus_tool"], none⟩ ∧
    chatEndpointResponse modelAlwaysTool "hi" ⟨none, []⟩ =
      ⟨true, "",
        some ["get_incidents", "get_incidents", "get_incidents", "get_incidents", "get_incidents"],
        none⟩ := by
  refine ⟨?_, ?_, ?_⟩
  · exact chat_fatal_path_outcomes.1 modelThrows "hi" ⟨none, []⟩ (fun _ => []) (fun _ => "")
      0 "boom" (by omega) (fun i hi => absurd hi (by omega)) (fun i hi => absurd hi (by omega))
      (fun i hi => absurd hi (by omega)) rfl
  · have h := chat_fatal_path_outcomes.2.2.1 modelBogusTool "hi" ⟨none, []⟩
      (fun _ => toolCallParts "bogus_tool") (fun _ => "") 0 "bogus_tool" (by omega)
      (fun _ _ => rfl) (fun i hi => absurd hi (by omega)) (fun i hi => absurd hi (by omega))
      rfl rfl
    exact h.trans rfl
  · have h := chat_fatal_path_outcomes.2.2.2 modelAlwaysTool "hi" ⟨none, []⟩
      (fun _ => toolCallParts "get_incidents") (fun _ => "get_incidents")
      (fun _ _ => rfl) (fun _ _ => rfl) (fun _ _ => rfl)
    exact h.trans rfl

/-- C8: if all four departure-time offset computations fail (request threw
or returned no route), `get_departure_times` returns the overall error
descriptor, never a partial success with an empty entry list. -/
theorem get_departure_times_all_fail_error (fetch : Nat → RouteFetch)
    (h : ∀ o ∈ departureOffsets, routeOf (fetch o) = none) :
    getDepartureTimes fetch = .error "Could not calculate departure times" := by
  have h0 := h 0 (by simp [departureOffsets])
  have h30 := h 30 (by simp [departureOffsets])
  have h60 := h 60 (by simp [departureOffsets])
  have h120 := h 120 (by simp [departureOffsets])
  have hraw : rawResults fetch = [] := by
    unfold rawResults departureOffsets
    simp [List.filterMap_cons, h0, h30, h60, h120]
  unfold getDepartureTimes
  rw [hraw]

/-- Witness for C8: every offset request throwing yields the error. -/
theorem get_departure_times_all_fail_error_witness :
    getDepartureTimes (fun _ => .thrown) = .error "Could not calculate departure times" :=
  get_departure_times_all_fail_error (fun _ => .thrown) (fun _ _ => rfl)

/-- C5: for every non-empty list of surviving departure-time results,
`get_departure_times` succeeds; the reduced `best` entry is one of the
results with minimum duration; `isBest` is true exactly for the entries
carrying the best label (a unique entry, since labels are distinct); when
the best option is `Now` the recommendation says so; when the `Now` offset
survived and the best option is not `Now`, the reported time saved is the
duration at offset 0 minus the duration at the chosen offset. In
particular, durations [Now=40, +30=35, +60=45, +120=50] minutes yield
recommendation `+30` with 5 minutes saved and `isBest` true only there. -/
theorem get_departure_times_recommends_minimum
    (fetch : Nat → RouteFetch) (r0 : RawEntry) (rest : List RawEntry)
    (hres : rawResults fetch = r0 :: rest) :
    (∃ out, getDepartureTimes fetch = .ok out ∧
      bestEntry r0 (r0 :: rest) ∈ r0 :: rest ∧
      (∀ r ∈ r0 :: rest, (bestEntry r0 (r0 :: rest)).durationMinutes ≤ r.durationMinutes) ∧
      (∀ e ∈ out.departureTimes, e.isBest = (e.label == (bestEntry r0 (r0 :: rest)).label)) ∧
      out.departureTimes.countP (fun e => e.isBest) = 1 ∧
      ((bestEntry r0 (r0 :: rest)).label = "Now" →
        out.recommendation = "Now is the best time to leave!") ∧
      (∀ s0, routeOf (fetch 0) = some s0 → (bestEntry r0 (r0 :: rest)).label ≠ "Now" →
        r0 = rawEntryOf 0 s0 ∧
        out.recommendation = "Wait " ++ removeFirstPlus (bestEntry r0 (r0 :: rest)).label ++
          " to save " ++ toString (jsRound (s0.travelTimeInSeconds / 60) -
            (bestEntry r0 (r0 :: rest)).durationMinutes) ++ " minutes")) ∧
    getDepartureTimes exampleRoutes = .ok
      ⟨[⟨"Now", 40, 0, false⟩, ⟨"+30 min", 35, 0, true⟩,
        ⟨"+60 min", 45, 0, false⟩, ⟨"+120 min", 50, 0, false⟩],
       "Wait 30 min to save 5 minutes"⟩ := by
  constructor
  · refine ⟨⟨(r0 :: rest).map (fun r =>
        DepartureEntry.mk r.label r.durationMinutes r.trafficDelayMinutes
          (r.label == (bestEntry r0 (r0 :: rest)).label)),
      if (bestEntry r0 (r0 :: rest)).label == "Now" then "Now is the best time to leave!"
      else "Wait " ++ removeFirstPlus (bestEntry r0 (r0 :: rest)).label ++ " to save " ++
        toString (r0.durationMinutes - (bestEntry r0 (r0 :: rest)).durationMinutes) ++
        " minutes"⟩, ?_, ?_, ?_, ?_, ?_, ?_, ?_⟩
    · unfold getDepartureTimes
      rw [hres]
    · rcases bestEntry_eq_or_mem (r0 :: rest) r0 with h | h
      · rw [h]; exact List.mem_cons_self _ _
      · exact h
    · exact (bestEntry_le (r0 :: rest) r0).2
    · intro e he
      rcases List.mem_map.mp he with ⟨r, hr, rfl⟩
      rfl
    · have hbm : bestEntry r0 (r0 :: rest) ∈ r0 :: rest := by
        rcases bestEntry_eq_or_mem (r0 :: rest) r0 with h | h
        · rw [h]; exact List.mem_cons_self _ _
        · exact h
      have hnd : ((r0 :: rest).map (fun r : RawEntry => r.label)).Nodup := by
        rw [← hres]; exact rawResults_labels_nodup fetch
      have hml : (bestEntry r0 (r0 :: rest)).label ∈
          (r0 :: rest).map (fun r : RawEntry => r.label) :=
        List.mem_map_of_mem _ hbm
      have hcount : ((r0 :: rest).map (fun r : RawEntry => r.label)).count
          ((bestEntry r0 (r0 :: rest)).label) = 1 :=
        List.count_eq_one_of_mem hnd hml
      calc ((r0 :: rest).map (fun r =>
              DepartureEntry.mk r.label r.durationMinutes r.trafficDelayMinutes
                (r.label == (bestEntry r0 (r0 :: rest)).label))).countP (fun e => e.isBest)
          = (r0 :: rest).countP (fun r => r.label == (bestEntry r0 (r0 :: rest)).label) := by
            rw [List.countP_map]
            rfl
        _ = ((r0 :: rest).map (fun r : RawEntry => r.label)).countP
              (fun s => s == (bestEntry r0 (r0 :: rest)).label) := by
            rw [List.countP_map]
            rfl
        _ = 1 := by
            rw [← hcount]
            rfl
    · intro hNow
      simp [hNow]
    · intro s0 hs0 hne
      have hfa : (fun offset => (routeOf (fetch offset)).map (rawEntryOf offset)) 0 =
          some (rawEntryOf 0 s0) := by simp [hs0]
      have hstep : rawResults fetch =
          rawEntryOf 0 s0 :: ([30, 60, 120].filterMap fun offset =>
            (routeOf (fetch offset)).map (rawEntryOf offset)) := by
        unfold rawResults departureOffsets
        rw [@List.filterMap_cons_some Nat RawEntry
          (fun offset => (routeOf (fetch offset)).map (rawEntryOf offset)) 0 [30, 60, 120]
          (rawEntryOf 0 s0) hfa]
      have hr0 : r0 = rawEntryOf 0 s0 := by
        injection hres.symm.trans hstep
      refine ⟨hr0, ?_⟩
      have hbne : ((bestEntry r0 (r0 :: rest)).label == "Now") = false :=
        beq_eq_false_iff_ne.mpr hne
      rw [hbne]
      simp only [if_false, Bool.false_eq_true]
      rw [hr0]
      rfl
  · unfold getDepartureTimes
    rw [rawResults_exampleRoutes]
    rfl

/-- Witness for C5 at the concrete durations [Now=40, +30=35, +60=45,
+120=50] minutes. -/
theorem get_departure_times_recommends_minimum_witness :
    getDepartureTimes exampleRoutes = .ok
      ⟨[⟨"Now", 40, 0, false⟩, ⟨"+30 min", 35, 0, true⟩,
        ⟨"+60 min", 45, 0, false⟩, ⟨"+120 min", 50, 0, false⟩],
       "Wait 30 min to save 5 minutes"⟩ :=
  (get_departure_times_recommends_minimum exampleRoutes ⟨"Now", 40, 0⟩
    [⟨"+30 min", 35, 0⟩, ⟨"+60 min", 45, 0⟩, ⟨"+120 min", 50, 0⟩]
    rawResults_exampleRoutes).2

end YallaChat
